import Mathlib

/-!
Verification of the WebSocket client program `src/cnostrtest/websocket_client.c`
and of the generalized client-core design described in the repository's design
document (frame codec, outbound queue).

The C program is embedded shallowly: the callback becomes a pure function from
the callback reason and payload to the bytes it prints and its return value,
and `main` becomes a function from the external environment (whether context
creation and connection initiation succeed) to the finite trace of externally
visible actions it performs together with its return code (`none` when it
enters the infinite service loop and never returns).
-/

set_option maxHeartbeats 1000000

namespace WSClient

/-- The libwebsockets callback reasons relevant to the program's switch
statement; `other` covers every reason that falls into the `default` case. -/
inductive LwsReason where
  | clientEstablished
  | clientReceive
  | clientConnectionError
  | other (code : Nat)
deriving DecidableEq, Repr

/-- Bytes of an ASCII string literal, as printed by `printf`. -/
def strBytes (s : String) : List Nat :=
  s.toList.map Char.toNat

/-- The C cast `(int)len` applied to a `size_t` value: truncation to 32 bits
followed by signed interpretation. -/
def intOfSizeT (n : Nat) : Int :=
  let m : Nat := n % 2 ^ 32
  if m < 2 ^ 31 then (m : Int) else (m : Int) - 2 ^ 32

/-- Semantics of the `printf` conversion `%.*s` with precision `prec` applied
to a byte buffer: writes bytes up to the precision or up to (excluding) the
first NUL byte, whichever comes first; a negative precision behaves as if the
precision were omitted (write up to the first NUL byte). -/
def printfPrecS (prec : Int) (bytes : List Nat) : List Nat :=
  if prec < 0 then bytes.takeWhile (fun b => b != 0)
  else (bytes.take prec.toNat).takeWhile (fun b => b != 0)

/-- Embedding of `callback_http`: for each reason it returns the bytes the
switch prints on stdout and the function's return value. -/
def callback_http (reason : LwsReason) (inBuf : List Nat) (len : Nat) :
    List Nat × Int :=
  match reason with
  | .clientEstablished =>
      (strBytes "WebSocket connection established\n", 0)
  | .clientReceive =>
      (strBytes "Received message: " ++ printfPrecS (intOfSizeT len) inBuf
        ++ [10], 0)
  | .clientConnectionError =>
      (strBytes "WebSocket connection error\n", 0)
  | .other _ => ([], 0)

/-- `LCCSCF_USE_SSL` from libwebsockets. -/
def LCCSCF_USE_SSL : Nat := 1

/-- `LCCSCF_ALLOW_SELFSIGNED` from libwebsockets. -/
def LCCSCF_ALLOW_SELFSIGNED : Nat := 2

/-- `LCCSCF_SKIP_SERVER_CERT_HOSTNAME_CHECK` from libwebsockets. -/
def LCCSCF_SKIP_SERVER_CERT_HOSTNAME_CHECK : Nat := 4

/-- The `#define SERVER_URL` constant of the program. -/
def SERVER_URL : String := "wss://relay.wellorder.net"

/-- The fields of `struct lws_client_connect_info` that the program fills in
(besides the opaque context pointer and the always-NULL protocol). -/
structure ClientConnectInfo where
  address : String
  path : String
  host : String
  origin : String
  ssl_connection : Nat
deriving DecidableEq, Repr

/-- The `conn_info` value `main` builds: the only environment-dependent field
is `host`, which comes from `lws_canonical_hostname(context)`. -/
def connInfo (host : String) : ClientConnectInfo :=
  { address := SERVER_URL
    path := "/"
    host := host
    origin := SERVER_URL
    ssl_connection :=
      LCCSCF_USE_SSL ||| LCCSCF_ALLOW_SELFSIGNED
        ||| LCCSCF_SKIP_SERVER_CERT_HOSTNAME_CHECK }

/-- External environment of one execution: whether `lws_create_context` and
`lws_client_connect_via_info` succeed, and the canonical hostname the library
reports. -/
structure Env where
  contextOk : Bool
  connectOk : Bool
  hostname : String
deriving DecidableEq, Repr

/-- Externally visible actions `main` performs, in order. -/
inductive Action where
  | createContext
  | printLine (bytes : List Nat)
  | connectAttempt (info : ClientConnectInfo)
  | contextDestroy
deriving DecidableEq, Repr

/-- Embedding of `main`: the finite trace of actions it performs and its
return code; the code is `none` when both external calls succeed, because the
program then enters `while (1) { lws_service(context, 0); }` and never
returns. `argv` is unused because `main` never reads `argc`/`argv`. -/
def mainTrace (argv : List String) (env : Env) : List Action × Option Int :=
  match argv with
  | _ =>
    if env.contextOk = false then
      ([.createContext,
        .printLine (strBytes "Failed to create WebSocket context\n")], some 1)
    else if env.connectOk = false then
      ([.createContext,
        .connectAttempt (connInfo env.hostname),
        .printLine (strBytes "Failed to connect to WebSocket server\n"),
        .contextDestroy], some 1)
    else
      ([.createContext, .connectAttempt (connInfo env.hostname)], none)

/-- Control-flow points of `main` for the small-step view of its loop
structure: `loop` is the head of `while (1)`, `afterLoop` is the
`lws_context_destroy` / `return 0` code following the loop. -/
inductive PC where
  | entry
  | ctxFail
  | connectStep
  | connFail
  | loop
  | afterLoop
  | halted (code : Nat)
deriving DecidableEq, Repr

/-- One control-flow step of `main` in environment `env`. The loop body
`lws_service(context, 0)` unconditionally branches back to the loop head. -/
def step (env : Env) : PC → PC
  | .entry => if env.contextOk then .connectStep else .ctxFail
  | .ctxFail => .halted 1
  | .connectStep => if env.connectOk then .loop else .connFail
  | .connFail => .halted 1
  | .loop => .loop
  | .afterLoop => .halted 0
  | .halted c => .halted c

/-- `n` control-flow steps. -/
def stepN (env : Env) : Nat → PC → PC
  | 0, p => p
  | n + 1, p => stepN env n (step env p)

/-- Recognizer for connection-initiation actions in a trace. -/
def isConnectAttempt : Action → Bool
  | .connectAttempt _ => true
  | _ => false

/-- Every connection-initiation action in a `main` trace carries exactly the
`conn_info` value the program built. -/
theorem connect_info_eq (argv : List String) (env : Env)
    (info : ClientConnectInfo)
    (h : Action.connectAttempt info ∈ (mainTrace argv env).1) :
    info = connInfo env.hostname := by
  obtain ⟨co, cn, host⟩ := env
  cases co <;> cases cn <;> simp [mainTrace] at h <;> exact h

/-- The TLS flag word of the program's `conn_info` is the fixed value 7
(`USE_SSL ||| ALLOW_SELFSIGNED ||| SKIP_SERVER_CERT_HOSTNAME_CHECK`),
whatever the hostname. -/
theorem connInfo_ssl (host : String) : (connInfo host).ssl_connection = 7 :=
  rfl

/-- Claim C1: in every execution, whatever the command-line arguments and the
environment, any TLS flag word passed at connection initiation has both the
allow-self-signed bit and the skip-server-certificate-hostname-check bit
set — hostname verification is disabled unconditionally. -/
theorem tls_flags_unconditional (argv : List String) (env : Env)
    (info : ClientConnectInfo)
    (h : Action.connectAttempt info ∈ (mainTrace argv env).1) :
    info.ssl_connection &&& LCCSCF_ALLOW_SELFSIGNED ≠ 0 ∧
    info.ssl_connection &&& LCCSCF_SKIP_SERVER_CERT_HOSTNAME_CHECK ≠ 0 := by
  have heq := connect_info_eq argv env info h
  subst heq
  exact ⟨by rw [connInfo_ssl]; decide, by rw [connInfo_ssl]; decide⟩

/-- Witness for C1 at a concrete environment where the connection is
attempted. -/
theorem tls_flags_check :
    (connInfo "h").ssl_connection &&& LCCSCF_ALLOW_SELFSIGNED ≠ 0 ∧
    (connInfo "h").ssl_connection &&&
      LCCSCF_SKIP_SERVER_CERT_HOSTNAME_CHECK ≠ 0 :=
  tls_flags_unconditional [] ⟨true, true, "h"⟩ (connInfo "h")
    (by simp [mainTrace])

/-- Claim C5: every connection-initiation action targets the compile-time
constant address and origin `wss://relay.wellorder.net` with path `/`, and
the `LCCSCF_USE_SSL` bit is always set. -/
theorem fixed_endpoint_and_tls (argv : List String) (env : Env)
    (info : ClientConnectInfo)
    (h : Action.connectAttempt info ∈ (mainTrace argv env).1) :
    info.address = "wss://relay.wellorder.net" ∧
    info.origin = "wss://relay.wellorder.net" ∧
    info.path = "/" ∧
    info.ssl_connection &&& LCCSCF_USE_SSL ≠ 0 := by
  have heq := connect_info_eq argv env info h
  subst heq
  exact ⟨rfl, rfl, rfl, by rw [connInfo_ssl]; decide⟩

/-- Witness for C5 at a concrete environment (connection initiation fails,
so the attempt still occurs once). -/
theorem fixed_endpoint_check :
    (connInfo "x").address = "wss://relay.wellorder.net" ∧
    (connInfo "x").origin = "wss://relay.wellorder.net" ∧
    (connInfo "x").path = "/" ∧
    (connInfo "x").ssl_connection &&& LCCSCF_USE_SSL ≠ 0 :=
  fixed_endpoint_and_tls [] ⟨true, false, "x"⟩ (connInfo "x")
    (by simp [mainTrace])

/-- Claim C6: the callback logs connection lifecycle events with the exact
messages of the source: establishment prints
`WebSocket connection established\n` and a connection error prints
`WebSocket connection error\n`, for every payload and length. -/
theorem lifecycle_events_logged (inBuf : List Nat) (len : Nat) :
    callback_http .clientEstablished inBuf len =
      (strBytes "WebSocket connection established\n", 0) ∧
    callback_http .clientConnectionError inBuf len =
      (strBytes "WebSocket connection error\n", 0) :=
  ⟨rfl, rfl⟩

/-- Claim C9: the callback returns 0 for every reason (handled or not) and
every payload and length. -/
theorem callback_returns_zero (reason : LwsReason) (inBuf : List Nat)
    (len : Nat) :
    (callback_http reason inBuf len).2 = 0 := by
  cases reason <;> rfl

/-- Counterexample to claim C2 as stated: the payload `[65, 0, 66]` of length
3 is not printed verbatim, because `printf`'s `%.*s` conversion stops at the
first NUL byte; only `65` is written between the prefix and the newline. -/
theorem receive_payload_not_verbatim :
    ¬ (callback_http .clientReceive [65, 0, 66] 3 =
        (strBytes "Received message: " ++ [65, 0, 66] ++ [10], 0)) := by
  decide

/-- Claim C2 amended: for a payload whose length fits in a C `int`, the
callback prints the prefix `Received message: `, then the payload truncated
at the first NUL byte (at most `len` bytes), then a newline. -/
theorem receive_prints_nul_truncated_payload (payload : List Nat) (len : Nat)
    (hlen : len = payload.length) (hbound : len < 2 ^ 31) :
    callback_http .clientReceive payload len =
      (strBytes "Received message: "
        ++ payload.takeWhile (fun b => b != 0) ++ [10], 0) := by
  subst hlen
  have hm : payload.length % 2 ^ 32 = payload.length :=
    Nat.mod_eq_of_lt (lt_trans hbound (by norm_num))
  have hval : intOfSizeT payload.length = (payload.length : Int) := by
    simp only [intOfSizeT, hm]
    rw [if_pos hbound]
  have hp : printfPrecS (intOfSizeT payload.length) payload =
      payload.takeWhile (fun b => b != 0) := by
    rw [hval, printfPrecS]
    rw [if_neg (not_lt.mpr (Int.natCast_nonneg _))]
    simp
  simp [callback_http, hp]

/-- Witness for the amended C2 at a concrete NUL-free payload. -/
theorem receive_prints_check :
    callback_http .clientReceive [104, 105] 2 =
      (strBytes "Received message: " ++ [104, 105] ++ [10], 0) := by
  have h := receive_prints_nul_truncated_payload [104, 105] 2 rfl
    (by norm_num)
  simpa using h

/-- Claim C3: in every execution the trace of `main` contains at most one
connection-initiation action; in particular after a failed connection no new
attempt is ever made. -/
theorem connect_attempted_at_most_once (argv : List String) (env : Env) :
    (mainTrace argv env).1.countP isConnectAttempt ≤ 1 := by
  obtain ⟨co, cn, host⟩ := env
  cases co <;> cases cn <;>
    simp [mainTrace, isConnectAttempt, List.countP_cons, List.countP_nil]

/-- The loop head of `while (1)` steps to itself forever. -/
theorem stepN_loop (env : Env) (n : Nat) : stepN env n PC.loop = PC.loop := by
  induction n with
  | zero => rfl
  | succ n ih => simpa [stepN, step] using ih

/-- Claim C4: once the service loop is entered the program never terminates
normally — from the loop head no number of steps reaches the post-loop
context destruction or any halt state; and when context creation and
connection initiation both succeed, `main` reaches the loop head and its
return code is `none` (it never returns). -/
theorem service_loop_never_terminates (argv : List String) (env : Env)
    (n : Nat) :
    stepN env n PC.loop = PC.loop ∧
    stepN env n PC.loop ≠ PC.afterLoop ∧
    (∀ c, stepN env n PC.loop ≠ PC.halted c) ∧
    (env.contextOk = true → env.connectOk = true →
      stepN env 2 PC.entry = PC.loop ∧ (mainTrace argv env).2 = none) := by
  obtain ⟨co, cn, host⟩ := env
  refine ⟨stepN_loop _ n, by rw [stepN_loop]; simp,
    fun c => by rw [stepN_loop]; simp, fun h1 h2 => ?_⟩
  simp only at h1 h2
  subst h1
  subst h2
  exact ⟨by simp [stepN, step], by simp [mainTrace]⟩

/-- Witness for C4 at a concrete environment where the loop is entered. -/
theorem service_loop_check :
    stepN ⟨true, true, "host"⟩ 5 PC.loop = PC.loop ∧
    (mainTrace [] ⟨true, true, "host"⟩).2 = none := by
  have h := service_loop_never_terminates [] ⟨true, true, "host"⟩ 5
  exact ⟨h.1, (h.2.2.2 rfl rfl).2⟩

/-- Claim C10: `main` returns `some 1` exactly when context creation fails or
connection initiation fails; any returned code is 1; and on those paths the
trace is exactly the corresponding error print (with context destruction on
the connection-failure path). -/
theorem exit_paths_and_code (argv : List String) (env : Env) :
    ((mainTrace argv env).2 = some 1 ↔
      env.contextOk = false ∨ env.connectOk = false) ∧
    (∀ c, (mainTrace argv env).2 = some c → c = 1) ∧
    (env.contextOk = false →
      (mainTrace argv env).1 =
        [.createContext,
         .printLine (strBytes "Failed to create WebSocket context\n")]) ∧
    (env.contextOk = true → env.connectOk = false →
      (mainTrace argv env).1 =
        [.createContext,
         .connectAttempt (connInfo env.hostname),
         .printLine (strBytes "Failed to connect to WebSocket server\n"),
         .contextDestroy]) := by
  obtain ⟨co, cn, host⟩ := env
  cases co <;> cases cn <;> simp [mainTrace]

/-- Witness for C10 at a concrete environment where context creation fails. -/
theorem exit_paths_check :
    (mainTrace [] ⟨false, true, "h"⟩).2 = some 1 :=
  (exit_paths_and_code [] ⟨false, true, "h"⟩).1.2 (Or.inl rfl)

/-! The generalized client core of the design document. The repository's
source contains none of this code, so the following definitions are
modelled from the design document's own words. -/

/-- Modelled from the spec: the error taxonomy of §7; no such code exists in
the repository's source. -/
inductive ErrorKind where
  | protocolViolation
  | timeout
  | queueFull
  | connectionClosed
  | givingUp
deriving DecidableEq, Repr

/-- Modelled from the spec: the text/binary message kind of §3. -/
inductive MsgKind where
  | text
  | binary
deriving DecidableEq, Repr

/-- Modelled from the spec: an outbound message of §3 — payload, kind, and
enqueue timestamp; no such code exists in the repository's source. -/
structure OutboundMessage where
  payload : List Nat
  kind : MsgKind
  enqueuedAt : Nat
deriving DecidableEq, Repr

/-- Modelled from the spec: the bounded FIFO outbound queue of §4.3 with
configurable capacity `N`; no such code exists in the repository's source. -/
structure OutQueue where
  capacity : Nat
  items : List OutboundMessage
deriving DecidableEq, Repr

/-- Modelled from the spec: `enqueue` of §4.3 — fails with `QueueFull` when
at capacity rather than growing unboundedly, otherwise appends at the FIFO
tail; no such code exists in the repository's source. -/
def enqueue (q : OutQueue) (m : OutboundMessage) :
    Except ErrorKind OutQueue :=
  if q.capacity ≤ q.items.length then .error .queueFull
  else .ok { q with items := q.items ++ [m] }

/-- Modelled from the spec: WebSocket frame opcodes of §3; no such code
exists in the repository's source. -/
inductive Opcode where
  | cont
  | text
  | binary
  | close
  | ping
  | pong
deriving DecidableEq, Repr

/-- Wire value of an opcode. -/
def Opcode.toNat : Opcode → Nat
  | .cont => 0
  | .text => 1
  | .binary => 2
  | .close => 8
  | .ping => 9
  | .pong => 10

/-- Opcode of a wire value. -/
def Opcode.fromWire : Nat → Option Opcode
  | 0 => some .cont
  | 1 => some .text
  | 2 => some .binary
  | 8 => some .close
  | 9 => some .ping
  | 10 => some .pong
  | _ => none

/-- Control frames are close, ping and pong. -/
def Opcode.isControl : Opcode → Bool
  | .close => true
  | .ping => true
  | .pong => true
  | _ => false

/-- Modelled from the spec: a frame of §3 — opcode, fin flag, payload byte
sequence, and the optional four-byte masking key (client-to-server only);
no such code exists in the repository's source. -/
structure Frame where
  opcode : Opcode
  fin : Bool
  payload : List Nat
  mask : Option (Nat × Nat × Nat × Nat)
deriving DecidableEq, Repr

/-- The four bytes of a masking key, in order. -/
def keyBytes : Nat × Nat × Nat × Nat → List Nat
  | (a, b, c, d) => [a, b, c, d]

/-- XOR-mask a byte sequence with a key, cycling over the key from offset
`i`. -/
def maskWith (key : List Nat) : Nat → List Nat → List Nat
  | _, [] => []
  | i, b :: bs => (b ^^^ key.getD (i % 4) 0) :: maskWith key (i + 1) bs

/-- Big-endian byte encoding of `v` in exactly `n` bytes. -/
def beBytes : Nat → Nat → List Nat
  | 0, _ => []
  | n + 1, v => beBytes n (v / 256) ++ [v % 256]

/-- Value of a big-endian byte sequence. -/
def beVal (bs : List Nat) : Nat :=
  bs.foldl (fun acc b => acc * 256 + b) 0

/-- Modelled from the spec: `encode` of §4.1 — produces a wire frame with the
length-field width (7-bit, 16-bit extended, or 64-bit extended) chosen by
payload size, the mask bit and key when the frame is masked, and fails with
`ProtocolViolation` for a control frame whose payload exceeds 125 bytes; no
such code exists in the repository's source. -/
def encode (f : Frame) : Except ErrorKind (List Nat) :=
  let len := f.payload.length
  if f.opcode.isControl = true ∧ 125 < len then .error .protocolViolation
  else
    let b0 := (if f.fin then 128 else 0) + f.opcode.toNat
    let extPair : Nat × List Nat :=
      if len ≤ 125 then (len, [])
      else if len ≤ 65535 then (126, beBytes 2 len)
      else (127, beBytes 8 len)
    match f.mask with
    | none => .ok (b0 :: extPair.1 :: (extPair.2 ++ f.payload))
    | some k =>
        .ok (b0 :: (128 + extPair.1) :: (extPair.2 ++ keyBytes k
          ++ maskWith (keyBytes k) 0 f.payload))

/-- Split off the first `n` bytes of a buffer, if present. -/
def takeN (n : Nat) (l : List Nat) : Option (List Nat × List Nat) :=
  if n ≤ l.length then some (l.take n, l.drop n) else none

/-- Modelled from the spec: `decode` of §4.1 — given an accumulating byte
buffer, returns the next complete frame and the number of bytes consumed if
enough bytes are present, else `none` with zero bytes consumed; no such code
exists in the repository's source. -/
def decode (buf : List Nat) : Option Frame × Nat :=
  match buf with
  | b0 :: b1 :: rest =>
    match Opcode.fromWire (b0 % 16) with
    | none => (none, 0)
    | some op =>
      let fin : Bool := decide (128 ≤ b0)
      let masked : Bool := decide (128 ≤ b1)
      let lenField := b1 % 128
      let extN := if lenField = 126 then 2 else
        if lenField = 127 then 8 else 0
      match takeN extN rest with
      | none => (none, 0)
      | some (ext, rest2) =>
        let len := if extN = 0 then lenField else beVal ext
        if masked then
          match takeN 4 rest2 with
          | none => (none, 0)
          | some (keyList, rest3) =>
            match takeN len rest3 with
            | none => (none, 0)
            | some (raw, _) =>
              match keyList with
              | [a, b, c, d] =>
                (some ⟨op, fin, maskWith keyList 0 raw, some (a, b, c, d)⟩,
                  2 + extN + 4 + len)
              | _ => (none, 0)
        else
          match takeN len rest2 with
          | none => (none, 0)
          | some (raw, _) => (some ⟨op, fin, raw, none⟩, 2 + extN + len)
  | _ => (none, 0)

/-- `beBytes` produces exactly `n` bytes. -/
theorem beBytes_length (n v : Nat) : (beBytes n v).length = n := by
  induction n generalizing v with
  | zero => rfl
  | succ n ih => simp [beBytes, ih]

/-- Appending one byte multiplies the big-endian value by 256 and adds it. -/
theorem beVal_append_one (l : List Nat) (b : Nat) :
    beVal (l ++ [b]) = beVal l * 256 + b := by
  simp [beVal, List.foldl_append]

/-- Reading back an `n`-byte big-endian encoding of `v < 256 ^ n` yields
`v`. -/
theorem beVal_beBytes (n v : Nat) (h : v < 256 ^ n) :
    beVal (beBytes n v) = v := by
  induction n generalizing v with
  | zero =>
    interval_cases v
    rfl
  | succ n ih =>
    rw [beBytes, beVal_append_one, ih (v / 256) (by omega)]
    omega

/-- Masking preserves length. -/
theorem maskWith_length (key : List Nat) (i : Nat) (bs : List Nat) :
    (maskWith key i bs).length = bs.length := by
  induction bs generalizing i with
  | nil => rfl
  | cons b bs ih => simp [maskWith, ih]

/-- Masking twice with the same key and offset is the identity. -/
theorem maskWith_maskWith (key : List Nat) (i : Nat) (bs : List Nat) :
    maskWith key i (maskWith key i bs) = bs := by
  induction bs generalizing i with
  | nil => rfl
  | cons b bs ih =>
    simp [maskWith, ih, Nat.xor_cancel_right]

/-- `takeN` splits a buffer that starts with an `n`-byte block exactly at the
block boundary. -/
theorem takeN_exact (n : Nat) (xs ys : List Nat) (h : xs.length = n) :
    takeN n (xs ++ ys) = some (xs, ys) := by
  subst h
  simp [takeN, List.take_left, List.drop_left]

/-- `takeN 0` consumes nothing. -/
theorem takeN_zero (l : List Nat) : takeN 0 l = some ([], l) := by
  simp [takeN]

/-- `takeN` of the whole buffer. -/
theorem takeN_all (l : List Nat) : takeN l.length l = some (l, []) := by
  simpa using takeN_exact l.length l [] rfl

/-- The wire value of an opcode decodes back to the opcode. -/
theorem fromWire_toNat (o : Opcode) : Opcode.fromWire o.toNat = some o := by
  cases o <;> rfl

/-- The low four bits of the first header byte are the opcode. -/
theorem header_opcode (fin : Bool) (op : Opcode) :
    Opcode.fromWire (((if fin then 128 else 0) + op.toNat) % 16) = some op := by
  cases fin <;> cases op <;> rfl

/-- The top bit of the first header byte is the fin flag. -/
theorem header_fin (fin : Bool) (op : Opcode) :
    decide (128 ≤ (if fin then 128 else 0) + op.toNat) = fin := by
  cases fin <;> cases op <;> rfl

/-- Claim C7: decoding an encoded frame yields the original frame and
consumes exactly the encoded bytes, for every frame the codec accepts
(any opcode, fin flag, masking key, and payload whose length is
representable in the 64-bit length field) — in particular at all three
length-field widths. -/
theorem decode_encode (f : Frame) (bs : List Nat)
    (henc : encode f = Except.ok bs)
    (hlen : f.payload.length < 2 ^ 64) :
    decode bs = (some f, bs.length) := by
  obtain ⟨op, fin, payload, mask⟩ := f
  simp only at hlen
  simp only [encode] at henc
  by_cases hctl : op.isControl = true ∧ 125 < payload.length
  · rw [if_pos hctl] at henc
    exact absurd henc (by simp)
  rw [if_neg hctl] at henc
  by_cases h1 : payload.length ≤ 125
  · rw [if_pos h1] at henc
    have hb1mod : payload.length % 128 = payload.length :=
      Nat.mod_eq_of_lt (by omega)
    have hne126 : payload.length ≠ 126 := by omega
    have hne127 : payload.length ≠ 127 := by omega
    cases mask with
    | none =>
      simp only [Except.ok.injEq] at henc
      subst henc
      have hmask : decide (128 ≤ payload.length) = false := by
        simp only [decide_eq_false_iff_not]
        omega
      simp [decode, header_opcode, header_fin, hmask, hb1mod, hne126,
        hne127, takeN_zero, takeN_all]
      omega
    | some k =>
      obtain ⟨a, b, c, d⟩ := k
      simp only [Except.ok.injEq, keyBytes] at henc
      subst henc
      have hmask : decide (128 ≤ 128 + payload.length) = true := by simp
      have hb1mod2 : (128 + payload.length) % 128 = payload.length := by
        omega
      have hne126b : 128 + payload.length ≠ 126 := by omega
      have h4 : ∀ ys, takeN 4 (a :: b :: c :: d :: ys) =
          some ([a, b, c, d], ys) :=
        fun ys => takeN_exact 4 [a, b, c, d] ys rfl
      have h5 : takeN payload.length (maskWith [a, b, c, d] 0 payload) =
          some (maskWith [a, b, c, d] 0 payload, []) := by
        conv in takeN payload.length =>
          rw [← maskWith_length [a, b, c, d] 0 payload]
        exact takeN_all _
      simp [decode, header_opcode, header_fin, hmask, hb1mod2, hne126,
        hne127, takeN_zero, h4, h5, maskWith_maskWith, maskWith_length]
      omega
  by_cases h2 : payload.length ≤ 65535
  · rw [if_neg h1, if_pos h2] at henc
    have hval : beVal (beBytes 2 payload.length) = payload.length :=
      beVal_beBytes 2 payload.length (by norm_num; omega)
    have hext : ∀ ys, takeN 2 (beBytes 2 payload.length ++ ys) =
        some (beBytes 2 payload.length, ys) :=
      fun ys => takeN_exact 2 _ ys (beBytes_length 2 payload.length)
    cases mask with
    | none =>
      simp only [Except.ok.injEq] at henc
      subst henc
      simp [decode, header_opcode, header_fin, hext, hval, takeN_all,
        beBytes_length]
      omega
    | some k =>
      obtain ⟨a, b, c, d⟩ := k
      simp only [Except.ok.injEq, keyBytes] at henc
      subst henc
      have h4 : ∀ ys, takeN 4 (a :: b :: c :: d :: ys) =
          some ([a, b, c, d], ys) :=
        fun ys => takeN_exact 4 [a, b, c, d] ys rfl
      have h5 : takeN payload.length (maskWith [a, b, c, d] 0 payload) =
          some (maskWith [a, b, c, d] 0 payload, []) := by
        conv in takeN payload.length =>
          rw [← maskWith_length [a, b, c, d] 0 payload]
        exact takeN_all _
      simp [decode, header_opcode, header_fin, hext, hval, h4, h5,
        maskWith_maskWith, maskWith_length, beBytes_length]
      omega
  · rw [if_neg h1, if_neg h2] at henc
    have hval : beVal (beBytes 8 payload.length) = payload.length :=
      beVal_beBytes 8 payload.length (by norm_num; omega)
    have hext : ∀ ys, takeN 8 (beBytes 8 payload.length ++ ys) =
        some (beBytes 8 payload.length, ys) :=
      fun ys => takeN_exact 8 _ ys (beBytes_length 8 payload.length)
    cases mask with
    | none =>
      simp only [Except.ok.injEq] at henc
      subst henc
      simp [decode, header_opcode, header_fin, hext, hval, takeN_all,
        beBytes_length]
      omega
    | some k =>
      obtain ⟨a, b, c, d⟩ := k
      simp only [Except.ok.injEq, keyBytes] at henc
      subst henc
      have h4 : ∀ ys, takeN 4 (a :: b :: c :: d :: ys) =
          some ([a, b, c, d], ys) :=
        fun ys => takeN_exact 4 [a, b, c, d] ys rfl
      have h5 : takeN payload.length (maskWith [a, b, c, d] 0 payload) =
          some (maskWith [a, b, c, d] 0 payload, []) := by
        conv in takeN payload.length =>
          rw [← maskWith_length [a, b, c, d] 0 payload]
        exact takeN_all _
      simp [decode, header_opcode, header_fin, hext, hval, h4, h5,
        maskWith_maskWith, maskWith_length, beBytes_length]
      omega

/-- Witness for C7: a concrete masked text frame round-trips; the bytes shown
are `encode` of the frame with payload `[1, 2, 3]` and key `(7, 8, 9, 10)`. -/
theorem decode_encode_check :
    decode [129, 131, 7, 8, 9, 10, 6, 10, 10] =
      (some ⟨Opcode.text, true, [1, 2, 3], some (7, 8, 9, 10)⟩, 9) :=
  decode_encode ⟨Opcode.text, true, [1, 2, 3], some (7, 8, 9, 10)⟩
    [129, 131, 7, 8, 9, 10, 6, 10, 10] (by rfl) (by norm_num)

/-- Claim C8: `enqueue` on a queue at capacity fails with `QueueFull` and
produces no new queue state — in this state-passing embedding the caller's
queue value is therefore unchanged by the failed call. -/
theorem enqueue_at_capacity_fails (q : OutQueue) (m : OutboundMessage)
    (h : q.items.length = q.capacity) :
    enqueue q m = Except.error ErrorKind.queueFull ∧
    ∀ q2, enqueue q m ≠ Except.ok q2 := by
  have he : enqueue q m = Except.error ErrorKind.queueFull := by
    simp [enqueue, h]
  exact ⟨he, fun q2 hq => by simp [he] at hq⟩

/-- Witness for C8: a one-slot queue holding one message rejects a second. -/
theorem enqueue_at_capacity_check :
    enqueue ⟨1, [⟨[104], MsgKind.text, 0⟩]⟩ ⟨[105], MsgKind.text, 1⟩ =
      Except.error ErrorKind.queueFull :=
  (enqueue_at_capacity_fails ⟨1, [⟨[104], MsgKind.text, 0⟩]⟩
    ⟨[105], MsgKind.text, 1⟩ rfl).1

end WSClient
